import Mathlib

/-!
Verification of the certwarden-client synchronization core.

The Go source is shallowly embedded: byte slices become `List Nat`, the
opaque collaborators (x509 parsing, PEM decoding, PKCS12 encoding, file
write success) become explicit oracle parameters, and functions that can
panic at runtime return `Option`.
-/

namespace CertWarden

/-- Go `[]byte`. -/
abbrev Bytes := List Nat

/-- Abstraction of a parsed `tls.Certificate`: only the leaf expiry matters
to the embedded logic. -/
structure TLSCert where
  notAfter : Nat
deriving DecidableEq, Repr

/-! ### CertificateStore (`SafeCert`, src/pkg/main/update.go lines 205-232) -/

/-- Struct `SafeCert` from src/pkg/main/update.go: current key/cert PEM pair and the
parsed TLS certificate. The mutex is irrelevant in the sequential embedding. -/
structure SafeCert where
  keyPem : Bytes
  certPem : Bytes
  cert : Option TLSCert
deriving DecidableEq, Repr

/-- Method `SafeCert.Update` from src/pkg/main/update.go lines 205-232.
`x509KeyPair` abstracts `tls.X509KeyPair certPem keyPem` (`none` = error).
Returns (new state, `updated` result, whether an error was returned).
Note the source assigns `sc.keyPem`/`sc.certPem` before calling
`tls.X509KeyPair`, so the PEM fields are replaced even on the error path. -/
def SafeCert.update (x509KeyPair : Bytes → Bytes → Option TLSCert)
    (sc : SafeCert) (keyPem certPem : Bytes) : SafeCert × Bool × Bool :=
  -- keyUpdated := !bytes.Equal(sc.keyPem, keyPem); certUpdated likewise
  let keyUpdated : Bool := !(sc.keyPem = keyPem : Bool)
  let certUpdated : Bool := !(sc.certPem = certPem : Bool)
  if !keyUpdated && !certUpdated then
    (sc, false, false)
  else
    let sc1 : SafeCert := { sc with keyPem := keyPem, certPem := certPem }
    match x509KeyPair certPem keyPem with
    | none => (sc1, false, true)
    | some tlsCert => ({ sc1 with cert := some tlsCert }, true, false)

/-! ### ReconciliationEngine
(`updateCertFilesAndRestartContainers`, src/pkg/main/update_common.go) -/

/-- Result of trying to read a file from disk: `absent` is `os.Stat`
reporting `ErrNotExist`, `unreadable` is an `os.ReadFile` error, and
`content` is a successful read. -/
inductive FileRead
  | absent
  | unreadable
  | content (b : Bytes)
deriving DecidableEq, Repr

/-- The slice of `app.cfg` the reconcile pass consults. -/
structure Cfg where
  pfxCreate : Bool
  pfxLegacyCreate : Bool
  dockerContainersToRestart : Nat
deriving DecidableEq, Repr

/-- On-disk state seen by one reconcile pass: the two PEM files (with read
outcome) and bare existence of the two optional PKCS12 files (the source
only calls `os.Stat` on those). -/
structure Disk where
  keyFile : FileRead
  certFile : FileRead
  modernPfxExists : Bool
  legacyPfxExists : Bool
deriving DecidableEq, Repr

/-- Oracles for the external collaborators of one reconcile pass:
`pemDecode` is `pem.Decode` (returning the DER bytes of the first block, or
`none` when no block is found), `parseCertNotAfter` is
`x509.ParseCertificate` reduced to the leaf `NotAfter`, `now` is
`time.Now()`, and the `*Ok` flags are the success of each `os.WriteFile`
or PKCS12 encode call. -/
structure Env where
  pemDecode : Bytes → Option Bytes
  parseCertNotAfter : Bytes → Option Nat
  now : Nat
  writeKeyOk : Bool
  writeCertOk : Bool
  makeModernPfxOk : Bool
  writeModernPfxOk : Bool
  makeLegacyPfxOk : Bool
  writeLegacyPfxOk : Bool

/-- Observable outcome of one reconcile pass: the computed
existence/staleness flags, which writes were attempted and succeeded, and
the aggregates the source computes. -/
structure ReconcileResult where
  keyFileExists : Bool
  keyFileUpdated : Bool
  certFileExists : Bool
  certFileUpdated : Bool
  anyFileMissing : Bool
  keyWriteAttempted : Bool
  keyWriteSucceeded : Bool
  certWriteAttempted : Bool
  certWriteSucceeded : Bool
  modernPfxWriteAttempted : Bool
  modernPfxWriteSucceeded : Bool
  legacyPfxWriteAttempted : Bool
  legacyPfxWriteSucceeded : Bool
  wroteAnyFiles : Bool
  failedAnyWrite : Bool
  restartedContainers : Bool
  diskNeedsUpdate : Bool
deriving DecidableEq, Repr

/-- The key.pem read of the reconcile pass
(src/pkg/main/update_common.go lines 20-38): `(exists, updated)`. -/
def keyFileStatus (keyPemApp : Bytes) (kf : FileRead) : Bool × Bool :=
  match kf with
  | .absent => (false, false)
  | .unreadable => (false, false)         -- "if cant read file, treat as if doesn't exist"
  | .content b => (true, !(b = keyPemApp : Bool))

/-- The certchain.pem read of the reconcile pass
(src/pkg/main/update_common.go lines 40-73): `some (exists, updated)`, or
`none` where the source panics (the `pem.Decode` result is nil and
`cert.Bytes` dereferences it). -/
def certFileStatus (env : Env) (certPemApp : Bytes) (cf : FileRead) :
    Option (Bool × Bool) :=
  match cf with
  | .absent => some (false, false)
  | .unreadable => some (false, false)
  | .content b =>
    if b = certPemApp then some (true, false)
    else
      match env.pemDecode b with
      | none => none                      -- nil block dereferenced: runtime crash
      | some der =>
        match env.parseCertNotAfter der with
        | none => some (false, true)      -- "disk cert not validly parsed, treat as not exist"
        | some notAfter =>
          if env.now > notAfter then
            some (false, true)            -- "disk cert expired, treat as not exist"
          else
            some (true, true)

/-- The write-decision and write-attempt tail of the reconcile pass
(src/pkg/main/update_common.go lines 87-177), over the already-computed
existence/staleness flags; `pfxCreate`/`pfxLegacyCreate`/`anyContainers`
come from `app.cfg`, the `*Ok` flags from the write/encode oracles. -/
def reconcileCore (onlyIfMissing : Bool)
    (keyFileExists keyFileUpdated certFileExists certFileUpdated
      modernPfxExists legacyPfxExists : Bool)
    (pfxCreate pfxLegacyCreate anyContainers : Bool)
    (writeKeyOk writeCertOk makeModernPfxOk writeModernPfxOk
      makeLegacyPfxOk writeLegacyPfxOk : Bool) : ReconcileResult :=
    let anyFileMissing := !keyFileExists || !certFileExists ||
      (pfxCreate && !modernPfxExists) ||
      (pfxLegacyCreate && !legacyPfxExists)
    -- write key pem
    let keyWriteAttempted := !keyFileExists ||
      (keyFileUpdated && (!onlyIfMissing || anyFileMissing))
    let keyWriteSucceeded := keyWriteAttempted && writeKeyOk
    -- write cert pem
    let certWriteAttempted := !certFileExists ||
      (certFileUpdated && (!onlyIfMissing || anyFileMissing))
    let certWriteSucceeded := certWriteAttempted && writeCertOk
    -- "use key/cert updated as proxy for other files updated check"
    let keyOrCertFileUpdated := keyFileUpdated || certFileUpdated
    -- write modern pfx (if enabled)
    let modernPfxWriteAttempted := pfxCreate && (!modernPfxExists ||
      (keyOrCertFileUpdated && (!onlyIfMissing || anyFileMissing)))
    let modernPfxWriteSucceeded := modernPfxWriteAttempted &&
      makeModernPfxOk && writeModernPfxOk
    -- write legacy pfx (if enabled)
    let legacyPfxWriteAttempted := pfxLegacyCreate && (!legacyPfxExists ||
      (keyOrCertFileUpdated && (!onlyIfMissing || anyFileMissing)))
    let legacyPfxWriteSucceeded := legacyPfxWriteAttempted &&
      makeLegacyPfxOk && writeLegacyPfxOk
    let wroteAnyFiles := keyWriteSucceeded || certWriteSucceeded ||
      modernPfxWriteSucceeded || legacyPfxWriteSucceeded
    let failedAnyWrite :=
      (keyWriteAttempted && !writeKeyOk) ||
      (certWriteAttempted && !writeCertOk) ||
      (modernPfxWriteAttempted && !(makeModernPfxOk && writeModernPfxOk)) ||
      (legacyPfxWriteAttempted && !(makeLegacyPfxOk && writeLegacyPfxOk))
    let restartedContainers := anyContainers && wroteAnyFiles
    let diskNeedsUpdate := (keyOrCertFileUpdated && !wroteAnyFiles) || failedAnyWrite
    { keyFileExists := keyFileExists
      keyFileUpdated := keyFileUpdated
      certFileExists := certFileExists
      certFileUpdated := certFileUpdated
      anyFileMissing := anyFileMissing
      keyWriteAttempted := keyWriteAttempted
      keyWriteSucceeded := keyWriteSucceeded
      certWriteAttempted := certWriteAttempted
      certWriteSucceeded := certWriteSucceeded
      modernPfxWriteAttempted := modernPfxWriteAttempted
      modernPfxWriteSucceeded := modernPfxWriteSucceeded
      legacyPfxWriteAttempted := legacyPfxWriteAttempted
      legacyPfxWriteSucceeded := legacyPfxWriteSucceeded
      wroteAnyFiles := wroteAnyFiles
      failedAnyWrite := failedAnyWrite
      restartedContainers := restartedContainers
      diskNeedsUpdate := diskNeedsUpdate }

/-- Function `updateCertFilesAndRestartContainers` from
src/pkg/main/update_common.go lines 16-178, as a pure function of the app
PEM pair, the disk state and the oracles. Returns `none` exactly where the
source panics (see `certFileStatus`). -/
def updateCertFilesAndRestartContainers (cfg : Cfg) (env : Env)
    (keyPemApp certPemApp : Bytes) (disk : Disk) (onlyIfMissing : Bool) :
    Option ReconcileResult :=
  (certFileStatus env certPemApp disk.certFile).map fun cs =>
    reconcileCore onlyIfMissing
      (keyFileStatus keyPemApp disk.keyFile).1 (keyFileStatus keyPemApp disk.keyFile).2
      cs.1 cs.2 disk.modernPfxExists disk.legacyPfxExists
      cfg.pfxCreate cfg.pfxLegacyCreate (decide (cfg.dockerContainersToRestart > 0))
      env.writeKeyOk env.writeCertOk env.makeModernPfxOk env.writeModernPfxOk
      env.makeLegacyPfxOk env.writeLegacyPfxOk

/-! ### Maintenance window
(src/pkg/main/main.go lines 156-231, src/pkg/main/update_fetch.go,
src/pkg/main/config.go) -/

/-- Helper `timeAIsBeforeOrEqualB` from src/pkg/main/update_fetch.go. -/
def timeAIsBeforeOrEqualB (aHr aMin bHr bMin : Nat) : Bool :=
  if aHr < bHr || (aHr == bHr && aMin ≤ bMin) then true else false

/-- Helper `timeAIsAfterOrEqualB` from src/pkg/main/update_fetch.go. -/
def timeAIsAfterOrEqualB (aHr aMin bHr bMin : Nat) : Bool :=
  if aHr > bHr || (aHr == bHr && aMin ≥ bMin) then true else false

/-- The maintenance-window slice of `app.cfg`. Weekdays use Go's
`time.Weekday` numbering (0 = Sunday); the map becomes a list. -/
structure WindowCfg where
  fileUpdateDaysOfWeek : List Nat
  startHour : Nat
  startMinute : Nat
  endHour : Nat
  endMinute : Nat
  includesMidnight : Bool
deriving DecidableEq, Repr

/-- Derivation of `FileUpdateTimeIncludesMidnight` from
src/pkg/main/config.go: true iff the end time-of-day is strictly earlier
than the start time-of-day. -/
def fileUpdateTimeIncludesMidnight (startHour startMinute endHour endMinute : Nat) : Bool :=
  if endHour < startHour || (endHour == startHour && endMinute < startMinute) then true
  else false

/-- Function `inFileUpdateWindow` from src/pkg/main/main.go lines 156-199, applied
to a time with weekday `wd`, hour `hr` and minute `mn`. -/
def inFileUpdateWindow (w : WindowCfg) (wd hr mn : Nat) : Bool :=
  let approvedWeekday := w.fileUpdateDaysOfWeek.contains wd
  let prevDayWasApprovedWeekday := w.fileUpdateDaysOfWeek.contains ((wd + 7 - 1) % 7)
  let tAfterOrEqualStartTime := timeAIsAfterOrEqualB hr mn w.startHour w.startMinute
  let tBeforeOrEqualEndTime := timeAIsBeforeOrEqualB hr mn w.endHour w.endMinute
  if w.includesMidnight then
    if prevDayWasApprovedWeekday && tBeforeOrEqualEndTime then true
    else if approvedWeekday && tAfterOrEqualStartTime then true
    else false
  else
    if approvedWeekday && tAfterOrEqualStartTime && tBeforeOrEqualEndTime then true
    else false

/-- Absolute time is minutes since an epoch whose day 0 is a Sunday;
24-hour days (the source's `Add(addDays * 24 * time.Hour)` is the same
linear arithmetic). -/
def weekdayOf (now : Nat) : Nat := (now / 1440) % 7

/-- Go `t.Hour()` for a minute-resolution instant. -/
def hourOf (now : Nat) : Nat := (now % 1440) / 60

/-- Go `t.Minute()` for a minute-resolution instant. -/
def minuteOf (now : Nat) : Nat := now % 60

/-- The `for addDays++; addDays <= 8; addDays++` scan of
`nextFileUpdateWindowStart` (src/pkg/main/main.go lines 217-223): starting
at offset `d` with `r` iterations left, return the first offset whose
weekday is approved, or run off the end (the source exits with 9). -/
def scanDays (days : List Nat) (wd : Nat) : Nat → Nat → Nat
  | d, 0 => d
  | d, r + 1 => if days.contains ((wd + d) % 7) then d else scanDays days wd (d + 1) r

/-- Function `nextFileUpdateWindowStart` from src/pkg/main/main.go lines 202-231.
`now` is already rounded to the minute. -/
def nextFileUpdateWindowStart (w : WindowCfg) (now : Nat) : Nat :=
  -- time stamp for today with window start time
  let nextWindow := (now / 1440) * 1440 + w.startHour * 60 + w.startMinute
  let todayWeekdayOk := w.fileUpdateDaysOfWeek.contains (weekdayOf now)
  if todayWeekdayOk &&
      timeAIsBeforeOrEqualB (hourOf now) (minuteOf now) w.startHour w.startMinute then
    nextWindow
  else
    let addDays := scanDays w.fileUpdateDaysOfWeek (weekdayOf now) 1 8
    nextWindow + addDays * 1440

/-! ### PushReceiver (`postKeyAndCert`, src/pkg/main/https_server_route.go) -/

/-- The served push path. -/
def postRoute : String := "/legocerthubclient/api/v1/install"

/-- HTTP statuses the handler writes. -/
inductive HStatus
  | ok200
  | bad400
  | unauth401
  | notFound404
deriving DecidableEq, Repr

/-- What the handler's deferred goroutine does with the job system. -/
inductive JobAction
  | scheduledWrite
  | canceledPending
  | noAction
  | crashed
deriving DecidableEq, Repr

/-- Oracles for the handler's collaborators: outer-body JSON decode into
`postPayload` (yielding the `payload` string), raw-URL base64 decode, the
AEAD nonce size and `Open`, inner JSON decode into `(key_pem, cert_pem)`,
and `tls.X509KeyPair`. -/
structure PushCrypto where
  decodeOuterJson : Bytes → Option String
  b64Decode : String → Option Bytes
  nonceSize : Nat
  aeadOpen : Bytes → Bytes → Option Bytes
  decodeInnerJson : Bytes → Option (Bytes × Bytes)
  x509KeyPair : Bytes → Bytes → Option TLSCert

/-- Mutable app state the handler touches: the certificate store and
whether `app.pendingJobCancel` is non-nil. -/
structure AppState where
  tlsCert : SafeCert
  pendingJob : Bool
deriving DecidableEq, Repr

/-- Observable outcome of one handler invocation (status written, store
state afterwards, whether the deferred goroutine ran
`updateCertFilesAndRestartContainers`, and its job action). -/
structure HandlerOutcome where
  status : HStatus
  tlsCert : SafeCert
  reconcileCalled : Bool
  action : JobAction
deriving DecidableEq, Repr

/-- Handler `postKeyAndCert` from src/pkg/main/https_server_route.go lines 26-99,
including the deferred goroutine's reconcile-and-schedule step. Returns
`none` where the source panics: `bodyDecoded[:nonceSize]` with a decoded
body shorter than the nonce size. -/
def postKeyAndCert (c : PushCrypto) (cfg : Cfg) (env : Env) (disk : Disk)
    (st : AppState) (path method : String) (body : Bytes) : Option HandlerOutcome :=
  if (!(path = postRoute : Bool) && !(path = postRoute ++ "/" : Bool)) ||
      !(method = "POST" : Bool) then
    some ⟨.notFound404, st.tlsCert, false, .noAction⟩
  else
    match c.decodeOuterJson body with
    | none => some ⟨.unauth401, st.tlsCert, false, .noAction⟩
    | some payload =>
      match c.b64Decode payload with
      | none => some ⟨.unauth401, st.tlsCert, false, .noAction⟩
      | some bodyDecoded =>
        if bodyDecoded.length < c.nonceSize then
          none  -- slice bounds out of range at runtime
        else
          match c.aeadOpen (bodyDecoded.take c.nonceSize) (bodyDecoded.drop c.nonceSize) with
          | none => some ⟨.unauth401, st.tlsCert, false, .noAction⟩
          | some bodyDecrypted =>
            match c.decodeInnerJson bodyDecrypted with
            | none => some ⟨.bad400, st.tlsCert, false, .noAction⟩
            | some (keyPem, certPem) =>
              -- updateClientCert -> tlsCert.Update
              match st.tlsCert.update c.x509KeyPair keyPem certPem with
              | (sc1, _, isErr) =>
                if isErr then some ⟨.bad400, sc1, false, .noAction⟩
                else
                  -- goroutine: reconcile with onlyIfMissing=true, then
                  -- schedule or cancel
                  match updateCertFilesAndRestartContainers cfg env
                      sc1.keyPem sc1.certPem disk true with
                  | none => some ⟨.ok200, sc1, true, .crashed⟩
                  | some r =>
                    if r.diskNeedsUpdate then
                      some ⟨.ok200, sc1, true, .scheduledWrite⟩
                    else if st.pendingJob then
                      some ⟨.ok200, sc1, true, .canceledPending⟩
                    else
                      some ⟨.ok200, sc1, true, .noAction⟩

/-! ### Scheduler job supersession
(`scheduleJobWriteCertsMemoryToDisk` / `scheduleJobFetchCertsAndWriteToDisk`,
src/pkg/main/main.go lines 236-344): an interleaving model of two
scheduling goroutines sharing the unsynchronized `app.pendingJobCancel`. -/

/-- Program counter of one scheduling goroutine: about to read the shared
cancel handle; handle read (old job canceled if one was installed); asleep
in the cancellable `select`; past the sleep and reconciling/fetching;
ran to completion; or returned because its context was canceled. -/
inductive JobPC
  | pStart
  | pCancelOld
  | pSleeping
  | pRunning
  | pDoneCompleted
  | pDoneCanceled
deriving DecidableEq, Repr, Fintype

/-- One goroutine's state: program counter plus whether its context's
cancel function has been called. -/
structure JobState where
  pc : JobPC
  canceled : Bool
deriving DecidableEq, Repr

/-- Shared state: `app.pendingJobCancel` (which job's cancel handle is
installed, `none` = nil) and the two goroutines. -/
structure SchedState where
  pendingJobCancel : Option Bool
  j0 : JobState
  j1 : JobState
deriving DecidableEq, Repr

/-- Atomic steps of the two goroutines. `cancelOld i` is goroutine `i`
executing `if app.pendingJobCancel != nil { app.pendingJobCancel() }`;
`install i` is `app.pendingJobCancel = cancel`; `wake i` is the timer
firing for an uncanceled sleeper; `observeCancel i` is a canceled sleeper
taking the `ctx.Done()` branch; `finish i` is a running job completing. -/
inductive SchedOp
  | cancelOld (i : Bool)
  | install (i : Bool)
  | wake (i : Bool)
  | observeCancel (i : Bool)
  | finish (i : Bool)
deriving DecidableEq, Repr, Fintype

/-- Project out one goroutine. -/
def SchedState.job (s : SchedState) (i : Bool) : JobState :=
  if i then s.j1 else s.j0

/-- Replace one goroutine's state. -/
def SchedState.setJob (s : SchedState) (i : Bool) (j : JobState) : SchedState :=
  if i then { s with j1 := j } else { s with j0 := j }

/-- One interleaving step; an op whose enabling condition fails is a no-op. -/
def schedStep (s : SchedState) (op : SchedOp) : SchedState :=
  match op with
  | .cancelOld i =>
    if (s.job i).pc = .pStart then
      let s1 :=
        match s.pendingJobCancel with
        | none => s
        | some j => s.setJob j { s.job j with canceled := true }
      s1.setJob i { s1.job i with pc := .pCancelOld }
    else s
  | .install i =>
    if (s.job i).pc = .pCancelOld then
      { s.setJob i { s.job i with pc := .pSleeping } with pendingJobCancel := some i }
    else s
  | .wake i =>
    if (s.job i).pc = .pSleeping && !(s.job i).canceled then
      s.setJob i { s.job i with pc := .pRunning }
    else s
  | .observeCancel i =>
    if (s.job i).pc = .pSleeping && (s.job i).canceled then
      s.setJob i { s.job i with pc := .pDoneCanceled }
    else s
  | .finish i =>
    if (s.job i).pc = .pRunning then
      s.setJob i { s.job i with pc := .pDoneCompleted }
    else s

/-- Run a trace of steps. -/
def schedRun (s : SchedState) (ops : List SchedOp) : SchedState :=
  ops.foldl schedStep s

/-- No job installed, both scheduling goroutines about to start. -/
def schedInit : SchedState :=
  ⟨none, ⟨.pStart, false⟩, ⟨.pStart, false⟩⟩

/-! ## Theorems -/

/-- The spec's window `22:00–02:00` on `{Wednesday}` (Go weekday 3), with
`includesMidnight` derived exactly as src/pkg/main/config.go derives it. -/
def wednesdayLateWindow : WindowCfg :=
  ⟨[3], 22, 0, 2, 0, fileUpdateTimeIncludesMidnight 22 0 2 0⟩

/-- Helper `timeAIsBeforeOrEqualB` agrees with comparison of minutes-of-day. -/
theorem timeAIsBeforeOrEqualB_eq (aHr aMin bHr bMin : Nat)
    (ha : aMin < 60) (hb : bMin < 60) :
    timeAIsBeforeOrEqualB aHr aMin bHr bMin =
      decide (aHr * 60 + aMin ≤ bHr * 60 + bMin) := by
  by_cases h : aHr * 60 + aMin ≤ bHr * 60 + bMin <;>
    simp [timeAIsBeforeOrEqualB, h] <;> omega

/-- Helper `timeAIsAfterOrEqualB` agrees with comparison of minutes-of-day. -/
theorem timeAIsAfterOrEqualB_eq (aHr aMin bHr bMin : Nat)
    (ha : aMin < 60) (hb : bMin < 60) :
    timeAIsAfterOrEqualB aHr aMin bHr bMin =
      decide (bHr * 60 + bMin ≤ aHr * 60 + aMin) := by
  by_cases h : bHr * 60 + bMin ≤ aHr * 60 + aMin <;>
    simp [timeAIsAfterOrEqualB, h] <;> omega

/-- C3: for a window that does not span midnight, `inFileUpdateWindow` is
true iff the weekday is approved and the time-of-day lies between start
and end inclusive; for a window that spans midnight, it is true iff the
previous weekday is approved and the time-of-day is at or before the end,
or the weekday is approved and the time-of-day is at or after the start.
For the window 22:00–02:00 on {Wednesday}: Wed 23:30 in, Thu 01:30 in,
Thu 03:00 out, Tue 23:30 out. -/
theorem inFileUpdateWindow_matches_spec (w : WindowCfg) (wd hr mn : Nat)
    (hmn : mn < 60) (hsm : w.startMinute < 60) (hem : w.endMinute < 60) :
    (w.includesMidnight = false →
      (inFileUpdateWindow w wd hr mn = true ↔
        wd ∈ w.fileUpdateDaysOfWeek ∧
        w.startHour * 60 + w.startMinute ≤ hr * 60 + mn ∧
        hr * 60 + mn ≤ w.endHour * 60 + w.endMinute)) ∧
    (w.includesMidnight = true →
      (inFileUpdateWindow w wd hr mn = true ↔
        ((wd + 6) % 7 ∈ w.fileUpdateDaysOfWeek ∧
          hr * 60 + mn ≤ w.endHour * 60 + w.endMinute) ∨
        (wd ∈ w.fileUpdateDaysOfWeek ∧
          w.startHour * 60 + w.startMinute ≤ hr * 60 + mn))) ∧
    (inFileUpdateWindow wednesdayLateWindow 3 23 30 = true ∧
      inFileUpdateWindow wednesdayLateWindow 4 1 30 = true ∧
      inFileUpdateWindow wednesdayLateWindow 4 3 0 = false ∧
      inFileUpdateWindow wednesdayLateWindow 2 23 30 = false) := by
  have h76 : wd + 7 - 1 = wd + 6 := by omega
  refine ⟨?_, ?_, by decide⟩ <;> intro hmid <;>
    simp [inFileUpdateWindow, hmid, h76,
      timeAIsBeforeOrEqualB_eq hr mn w.endHour w.endMinute hmn hem,
      timeAIsAfterOrEqualB_eq hr mn w.startHour w.startMinute hmn hsm] <;>
    tauto

/-- Witness for C3 at the window 22:00–02:00 on {Wednesday}, Wed 23:30. -/
theorem inFileUpdateWindow_matches_spec_witness :
    (30 < 60 ∧ wednesdayLateWindow.startMinute < 60 ∧
      wednesdayLateWindow.endMinute < 60) ∧
    (wednesdayLateWindow.includesMidnight = true →
      (inFileUpdateWindow wednesdayLateWindow 3 23 30 = true ↔
        ((3 + 6) % 7 ∈ wednesdayLateWindow.fileUpdateDaysOfWeek ∧
          23 * 60 + 30 ≤ wednesdayLateWindow.endHour * 60 + wednesdayLateWindow.endMinute) ∨
        (3 ∈ wednesdayLateWindow.fileUpdateDaysOfWeek ∧
          wednesdayLateWindow.startHour * 60 + wednesdayLateWindow.startMinute ≤ 23 * 60 + 30))) :=
  ⟨⟨by decide, by decide, by decide⟩,
    (inFileUpdateWindow_matches_spec wednesdayLateWindow 3 23 30
      (by decide) (by decide) (by decide)).2.1⟩

/-- The `addDays` scan returns the first approved offset in its range, if
the range holds one. -/
theorem scanDays_spec (days : List Nat) (wd : Nat) :
    ∀ r d, (∃ j, d ≤ j ∧ j < d + r ∧ (wd + j) % 7 ∈ days) →
      (wd + scanDays days wd d r) % 7 ∈ days ∧
      d ≤ scanDays days wd d r ∧ scanDays days wd d r < d + r ∧
      ∀ j, d ≤ j → j < scanDays days wd d r → (wd + j) % 7 ∉ days := by
  intro r
  induction r with
  | zero => intro d ⟨j, hj1, hj2, _⟩; omega
  | succ r ih =>
    intro d ⟨j, hj1, hj2, hj3⟩
    by_cases hd : (wd + d) % 7 ∈ days
    · have hstep : scanDays days wd d (r + 1) = d := by simp [scanDays, hd]
      rw [hstep]
      exact ⟨hd, Nat.le_refl d, by omega,
        fun k hk1 hk2 => absurd (Nat.lt_of_le_of_lt hk1 hk2) (Nat.lt_irrefl d)⟩
    · have hstep : scanDays days wd d (r + 1) = scanDays days wd (d + 1) r := by
        simp [scanDays, hd]
      have hjd : j ≠ d := fun h => hd (h ▸ hj3)
      obtain ⟨h1, h2, h3, h4⟩ := ih (d + 1) ⟨j, by omega, by omega, hj3⟩
      rw [hstep]
      refine ⟨h1, by omega, by omega, ?_⟩
      intro k hk1 hk2
      rcases Nat.eq_or_lt_of_le hk1 with h | h
      · simpa [← h] using hd
      · exact h4 k (by omega) hk2

/-- A non-empty set of valid weekdays is hit within 7 forward days. -/
theorem exists_approved_offset (days : List Nat) (wd : Nat)
    (hmem : ∀ x ∈ days, x < 7) (hne : days ≠ []) :
    ∃ j, 1 ≤ j ∧ j ≤ 7 ∧ (wd + j) % 7 ∈ days := by
  obtain ⟨w, hw⟩ : ∃ w, w ∈ days := by
    cases days with
    | nil => exact absurd rfl hne
    | cons a l => exact ⟨a, List.mem_cons_self a l⟩
  have hw7 : w < 7 := hmem w hw
  have ha7 : wd % 7 < 7 := Nat.mod_lt _ (by omega)
  refine ⟨if wd % 7 < w then w - wd % 7 else 7 - wd % 7 + w, ?_, ?_, ?_⟩
  · split <;> omega
  · split <;> omega
  · have h : (wd + (if wd % 7 < w then w - wd % 7 else 7 - wd % 7 + w)) % 7 = w := by
      split <;> omega
    rw [h]; exact hw

/-- C7: with a non-empty set of valid approved weekdays, if today's weekday
is approved and the time-of-day is at or before the window start,
`nextFileUpdateWindowStart` returns today's start; otherwise it returns the
start on the closest approved weekday 1-7 days ahead; and in every case
the result is at most 8 days after `now`. -/
theorem nextFileUpdateWindowStart_matches_spec (w : WindowCfg) (now : Nat)
    (hmem : ∀ x ∈ w.fileUpdateDaysOfWeek, x < 7)
    (hne : w.fileUpdateDaysOfWeek ≠ [])
    (hsh : w.startHour < 24) (hsm : w.startMinute < 60) :
    ((weekdayOf now ∈ w.fileUpdateDaysOfWeek ∧
        now % 1440 ≤ w.startHour * 60 + w.startMinute) →
      nextFileUpdateWindowStart w now =
        now / 1440 * 1440 + w.startHour * 60 + w.startMinute) ∧
    (¬(weekdayOf now ∈ w.fileUpdateDaysOfWeek ∧
        now % 1440 ≤ w.startHour * 60 + w.startMinute) →
      ∃ d, 1 ≤ d ∧ d ≤ 7 ∧ (weekdayOf now + d) % 7 ∈ w.fileUpdateDaysOfWeek ∧
        (∀ e, 1 ≤ e → e < d → (weekdayOf now + e) % 7 ∉ w.fileUpdateDaysOfWeek) ∧
        nextFileUpdateWindowStart w now =
          now / 1440 * 1440 + w.startHour * 60 + w.startMinute + d * 1440) ∧
    nextFileUpdateWindowStart w now ≤ now + 8 * 1440 := by
  have htod : hourOf now * 60 + minuteOf now = now % 1440 := by
    unfold hourOf minuteOf; omega
  have hble : timeAIsBeforeOrEqualB (hourOf now) (minuteOf now) w.startHour w.startMinute =
      decide (now % 1440 ≤ w.startHour * 60 + w.startMinute) := by
    rw [timeAIsBeforeOrEqualB_eq _ _ _ _ (by unfold minuteOf; omega) hsm, htod]
  by_cases hcond : weekdayOf now ∈ w.fileUpdateDaysOfWeek ∧
      now % 1440 ≤ w.startHour * 60 + w.startMinute
  · have hres : nextFileUpdateWindowStart w now =
        now / 1440 * 1440 + w.startHour * 60 + w.startMinute := by
      simp [nextFileUpdateWindowStart, hble, hcond.1, hcond.2]
    refine ⟨fun _ => hres, fun h => absurd hcond h, ?_⟩
    rw [hres]; omega
  · obtain ⟨j, hj1, hj7, hjmem⟩ :=
      exists_approved_offset w.fileUpdateDaysOfWeek (weekdayOf now) hmem hne
    obtain ⟨hsmem, hs1, hs9, hsmin⟩ :=
      scanDays_spec w.fileUpdateDaysOfWeek (weekdayOf now) 8 1 ⟨j, hj1, by omega, hjmem⟩
    set s := scanDays w.fileUpdateDaysOfWeek (weekdayOf now) 1 8 with hs
    have hs7 : s ≤ 7 := by
      by_contra hgt
      exact hsmin j hj1 (by omega) hjmem
    have hres : nextFileUpdateWindowStart w now =
        now / 1440 * 1440 + w.startHour * 60 + w.startMinute + s * 1440 := by
      simp [nextFileUpdateWindowStart, ← hs, hble]
      intro h1 h2
      exact absurd ⟨h1, h2⟩ hcond
    refine ⟨fun h => absurd h hcond, fun _ => ⟨s, hs1, hs7, hsmem, hsmin, hres⟩, ?_⟩
    rw [hres]; omega

/-- Witness for C7: the Wednesday window, taken from Sunday 00:00 (day 0):
the scan lands on Wednesday 3 days ahead, within the 8-day bound. -/
theorem nextFileUpdateWindowStart_matches_spec_witness :
    ((∀ x ∈ wednesdayLateWindow.fileUpdateDaysOfWeek, x < 7) ∧
      wednesdayLateWindow.fileUpdateDaysOfWeek ≠ [] ∧
      wednesdayLateWindow.startHour < 24 ∧ wednesdayLateWindow.startMinute < 60) ∧
    nextFileUpdateWindowStart wednesdayLateWindow 0 ≤ 0 + 8 * 1440 :=
  ⟨⟨by decide, by decide, by decide, by decide⟩,
    (nextFileUpdateWindowStart_matches_spec wednesdayLateWindow 0
      (by decide) (by decide) (by decide) (by decide)).2.2⟩

/-- C2 (failing input): `SafeCert.Update` with a pair that does not parse
(`tls.X509KeyPair` errors) returns an error yet leaves the NEW pem blobs
stored, with the OLD parsed certificate: the store is partially updated,
contradicting the claimed unchanged-state guarantee. A repeat of the same
failed call then reports success with no change. -/
theorem safeCert_update_failed_pair_mutates_store :
    SafeCert.update (fun _ _ => none) ⟨[0], [1], some ⟨100⟩⟩ [2] [3] =
      (⟨[2], [3], some ⟨100⟩⟩, false, true) ∧
    SafeCert.update (fun _ _ => none) ⟨[2], [3], some ⟨100⟩⟩ [2] [3] =
      (⟨[2], [3], some ⟨100⟩⟩, false, false) := by
  constructor <;> rfl

/-- C4: an `Update` whose inputs are byte-identical to the stored pair is
a no-op: it returns `changed=false` with no error, leaves the store
untouched, does not consult the key-pair parser (the result is the same
for every parsing oracle), repeats idempotently, and a subsequent
reconcile pass over a disk that matches the stored material attempts no
file write. -/
theorem safeCert_update_identical_pair_noop
    (f g : Bytes → Bytes → Option TLSCert) (sc : SafeCert) (keyPem certPem : Bytes)
    (hk : sc.keyPem = keyPem) (hc : sc.certPem = certPem) :
    sc.update f keyPem certPem = (sc, false, false) ∧
    sc.update f keyPem certPem = sc.update g keyPem certPem ∧
    ((sc.update f keyPem certPem).1).update g keyPem certPem = (sc, false, false) ∧
    (∀ cfg env disk oim,
      disk.keyFile = .content keyPem → disk.certFile = .content certPem →
      (cfg.pfxCreate = true → disk.modernPfxExists = true) →
      (cfg.pfxLegacyCreate = true → disk.legacyPfxExists = true) →
      ∃ r, updateCertFilesAndRestartContainers cfg env
          ((sc.update f keyPem certPem).1).keyPem
          ((sc.update f keyPem certPem).1).certPem disk oim = some r ∧
        r.keyWriteAttempted = false ∧ r.certWriteAttempted = false ∧
        r.modernPfxWriteAttempted = false ∧ r.legacyPfxWriteAttempted = false ∧
        r.wroteAnyFiles = false ∧ r.diskNeedsUpdate = false) := by
  have hnoop : sc.update f keyPem certPem = (sc, false, false) := by
    simp [SafeCert.update, hk, hc]
  refine ⟨hnoop, ?_, ?_, ?_⟩
  · rw [hnoop]; symm; simp [SafeCert.update, hk, hc]
  · rw [hnoop]; simp [SafeCert.update, hk, hc]
  · intro cfg env disk oim hkf hcf hpm hpl
    rw [hnoop]
    subst hk; subst hc
    obtain ⟨dk, dc, dm, dl⟩ := disk
    simp only at hkf hcf hpm hpl
    subst hkf; subst hcf
    have hb1 : (cfg.pfxCreate && !dm) = false := by
      cases h : cfg.pfxCreate
      · simp
      · simp [hpm h]
    have hb2 : (cfg.pfxLegacyCreate && !dl) = false := by
      cases h : cfg.pfxLegacyCreate
      · simp
      · simp [hpl h]
    simp [updateCertFilesAndRestartContainers, keyFileStatus, certFileStatus,
      reconcileCore, hb1, hb2]

/-- A completed (non-panicking) reconcile pass is `reconcileCore` applied
to the computed key- and cert-file status flags. -/
theorem updateCertFiles_eq_some_iff (cfg : Cfg) (env : Env) (k c : Bytes)
    (disk : Disk) (oim : Bool) (r : ReconcileResult) :
    updateCertFilesAndRestartContainers cfg env k c disk oim = some r ↔
    ∃ cE cU, certFileStatus env c disk.certFile = some (cE, cU) ∧
      r = reconcileCore oim (keyFileStatus k disk.keyFile).1
        (keyFileStatus k disk.keyFile).2 cE cU disk.modernPfxExists
        disk.legacyPfxExists cfg.pfxCreate cfg.pfxLegacyCreate
        (decide (cfg.dockerContainersToRestart > 0))
        env.writeKeyOk env.writeCertOk env.makeModernPfxOk env.writeModernPfxOk
        env.makeLegacyPfxOk env.writeLegacyPfxOk := by
  unfold updateCertFilesAndRestartContainers
  cases h : certFileStatus env c disk.certFile with
  | none => simp
  | some p =>
    cases p
    simp only [Option.map_some', Option.some.injEq, h, Prod.mk.injEq]
    constructor
    · intro hh; exact ⟨_, _, ⟨rfl, rfl⟩, hh.symm⟩
    · rintro ⟨a, b, ⟨rfl, rfl⟩, hh⟩; exact hh.symm

set_option synthInstance.maxSize 10000 in
/-- C1: in a completed reconcile pass, `anyFileMissing` holds iff some
enabled file is effectively absent, and each managed file's write is
attempted iff the file is absent, or it is stale and (`onlyIfMissing` is
off or some enabled file is missing); PKCS12 staleness is the key/cert PEM
staleness, and a disabled PKCS12 file is never written. -/
theorem reconcile_write_decision_matches_spec (cfg : Cfg) (env : Env)
    (keyPemApp certPemApp : Bytes) (disk : Disk) (onlyIfMissing : Bool)
    (r : ReconcileResult)
    (h : updateCertFilesAndRestartContainers cfg env keyPemApp certPemApp disk
      onlyIfMissing = some r) :
    (r.anyFileMissing = true ↔
      r.keyFileExists = false ∨ r.certFileExists = false ∨
      (cfg.pfxCreate = true ∧ disk.modernPfxExists = false) ∨
      (cfg.pfxLegacyCreate = true ∧ disk.legacyPfxExists = false)) ∧
    (r.keyWriteAttempted = true ↔
      r.keyFileExists = false ∨
      (r.keyFileUpdated = true ∧ (onlyIfMissing = false ∨ r.anyFileMissing = true))) ∧
    (r.certWriteAttempted = true ↔
      r.certFileExists = false ∨
      (r.certFileUpdated = true ∧ (onlyIfMissing = false ∨ r.anyFileMissing = true))) ∧
    (cfg.pfxCreate = true →
      (r.modernPfxWriteAttempted = true ↔
        disk.modernPfxExists = false ∨
        ((r.keyFileUpdated = true ∨ r.certFileUpdated = true) ∧
          (onlyIfMissing = false ∨ r.anyFileMissing = true)))) ∧
    (cfg.pfxCreate = false → r.modernPfxWriteAttempted = false) ∧
    (cfg.pfxLegacyCreate = true →
      (r.legacyPfxWriteAttempted = true ↔
        disk.legacyPfxExists = false ∨
        ((r.keyFileUpdated = true ∨ r.certFileUpdated = true) ∧
          (onlyIfMissing = false ∨ r.anyFileMissing = true)))) ∧
    (cfg.pfxLegacyCreate = false → r.legacyPfxWriteAttempted = false) := by
  rw [updateCertFiles_eq_some_iff] at h
  obtain ⟨cE, cU, hcs, hr⟩ := h
  subst hr
  rcases hks : keyFileStatus keyPemApp disk.keyFile with ⟨kE, kU⟩
  clear hcs hks
  obtain ⟨pC, plC, n⟩ := cfg
  obtain ⟨dk, dc, dm, dl⟩ := disk
  simp only [reconcileCore]
  revert kE kU cE cU dm dl onlyIfMissing pC plC
  decide

set_option synthInstance.maxSize 10000 in
set_option maxHeartbeats 1000000 in
/-- C6: a completed reconcile pass reports `diskNeedsUpdate` iff some
content was stale but not successfully written this pass (PKCS12 staleness
being the PEM staleness), or some enabled write attempt did not succeed. -/
theorem reconcile_diskNeedsUpdate_matches_spec (cfg : Cfg) (env : Env)
    (keyPemApp certPemApp : Bytes) (disk : Disk) (onlyIfMissing : Bool)
    (r : ReconcileResult)
    (h : updateCertFilesAndRestartContainers cfg env keyPemApp certPemApp disk
      onlyIfMissing = some r) :
    r.diskNeedsUpdate = true ↔
      ((r.keyFileUpdated = true ∧ r.keyWriteSucceeded = false) ∨
        (r.certFileUpdated = true ∧ r.certWriteSucceeded = false) ∨
        (cfg.pfxCreate = true ∧ (r.keyFileUpdated = true ∨ r.certFileUpdated = true) ∧
          r.modernPfxWriteSucceeded = false) ∨
        (cfg.pfxLegacyCreate = true ∧ (r.keyFileUpdated = true ∨ r.certFileUpdated = true) ∧
          r.legacyPfxWriteSucceeded = false)) ∨
      ((r.keyWriteAttempted = true ∧ r.keyWriteSucceeded = false) ∨
        (r.certWriteAttempted = true ∧ r.certWriteSucceeded = false) ∨
        (r.modernPfxWriteAttempted = true ∧ r.modernPfxWriteSucceeded = false) ∨
        (r.legacyPfxWriteAttempted = true ∧ r.legacyPfxWriteSucceeded = false)) := by
  rw [updateCertFiles_eq_some_iff] at h
  obtain ⟨cE, cU, hcs, hr⟩ := h
  subst hr
  rcases hks : keyFileStatus keyPemApp disk.keyFile with ⟨kE, kU⟩
  clear hcs hks
  obtain ⟨pC, plC, n⟩ := cfg
  obtain ⟨dk, dc, dm, dl⟩ := disk
  obtain ⟨pd, pcert, nw, w1, w2, w3, w4, w5, w6⟩ := env
  simp only [reconcileCore]
  revert kE kU cE cU dm dl onlyIfMissing pC plC w1 w2 w3 w4 w5 w6
  decide

/-- Concrete oracles for witness evaluations: every disk-cert content
yields DER `[0]` with `NotAfter` 10, the clock reads 5, all writes and
PKCS12 encodes succeed. -/
def sampleEnv : Env :=
  ⟨fun _ => some [0], fun _ => some 10, 5, true, true, true, true, true, true⟩

/-- Concrete config for witness evaluations: modern PKCS12 enabled, legacy
disabled, one container configured. -/
def sampleCfg : Cfg := ⟨true, false, 1⟩

/-- Concrete disk for witness evaluations: key.pem absent, certchain.pem
present with content `[9]`, no PKCS12 files. -/
def sampleDisk : Disk := ⟨.absent, .content [9], false, false⟩

/-- The reconcile outcome on the sample state (app pem `[7]`/`[8]`,
`onlyIfMissing = true`): the on-disk cert differs but parses unexpired, so
`(certFileExists, certFileUpdated) = (true, true)`. -/
def sampleResult : ReconcileResult :=
  reconcileCore true
    (keyFileStatus [7] sampleDisk.keyFile).1 (keyFileStatus [7] sampleDisk.keyFile).2
    true true sampleDisk.modernPfxExists sampleDisk.legacyPfxExists
    sampleCfg.pfxCreate sampleCfg.pfxLegacyCreate
    (decide (sampleCfg.dockerContainersToRestart > 0))
    sampleEnv.writeKeyOk sampleEnv.writeCertOk sampleEnv.makeModernPfxOk
    sampleEnv.writeModernPfxOk sampleEnv.makeLegacyPfxOk sampleEnv.writeLegacyPfxOk

/-- Witness for C1 at the sample state (key.pem absent, certchain.pem
stale, modern PKCS12 enabled but absent). -/
theorem reconcile_write_decision_matches_spec_witness :
    updateCertFilesAndRestartContainers sampleCfg sampleEnv [7] [8] sampleDisk true =
      some sampleResult ∧
    (sampleResult.keyWriteAttempted = true ↔
      sampleResult.keyFileExists = false ∨
      (sampleResult.keyFileUpdated = true ∧
        (true = false ∨ sampleResult.anyFileMissing = true))) :=
  ⟨rfl, (reconcile_write_decision_matches_spec sampleCfg sampleEnv [7] [8]
    sampleDisk true sampleResult rfl).2.1⟩

/-- Witness for C6 at the sample state. -/
theorem reconcile_diskNeedsUpdate_matches_spec_witness :
    updateCertFilesAndRestartContainers sampleCfg sampleEnv [7] [8] sampleDisk true =
      some sampleResult ∧
    (sampleResult.diskNeedsUpdate = true ↔
      ((sampleResult.keyFileUpdated = true ∧ sampleResult.keyWriteSucceeded = false) ∨
        (sampleResult.certFileUpdated = true ∧ sampleResult.certWriteSucceeded = false) ∨
        (sampleCfg.pfxCreate = true ∧
          (sampleResult.keyFileUpdated = true ∨ sampleResult.certFileUpdated = true) ∧
          sampleResult.modernPfxWriteSucceeded = false) ∨
        (sampleCfg.pfxLegacyCreate = true ∧
          (sampleResult.keyFileUpdated = true ∨ sampleResult.certFileUpdated = true) ∧
          sampleResult.legacyPfxWriteSucceeded = false)) ∨
      ((sampleResult.keyWriteAttempted = true ∧ sampleResult.keyWriteSucceeded = false) ∨
        (sampleResult.certWriteAttempted = true ∧ sampleResult.certWriteSucceeded = false) ∨
        (sampleResult.modernPfxWriteAttempted = true ∧
          sampleResult.modernPfxWriteSucceeded = false) ∨
        (sampleResult.legacyPfxWriteAttempted = true ∧
          sampleResult.legacyPfxWriteSucceeded = false))) :=
  ⟨rfl, reconcile_diskNeedsUpdate_matches_spec sampleCfg sampleEnv [7] [8]
    sampleDisk true sampleResult rfl⟩

/-- C10: the claim's described behavior holds for a disk cert whose DER
fails to parse or is expired (treated as non-existent, so `anyFileMissing`
and the stale key.pem is rewritten even with `onlyIfMissing = true`), but
when the differing disk content holds no PEM block at all, the pass
crashes (`pem.Decode` returns nil and `cert.Bytes` dereferences it)
instead of treating the file as missing. -/
theorem reconcile_undecodable_disk_cert_crashes :
    updateCertFilesAndRestartContainers ⟨false, false, 0⟩
      ⟨fun _ => none, fun _ => some 10, 5, true, true, true, true, true, true⟩
      [7] [8] ⟨.content [7], .content [9], true, true⟩ true = none ∧
    (updateCertFilesAndRestartContainers ⟨false, false, 0⟩
      ⟨fun _ => some [0], fun _ => none, 5, true, true, true, true, true, true⟩
      [7] [8] ⟨.content [6], .content [9], false, false⟩ true).map
        (fun r => (r.certFileExists, r.certFileUpdated, r.anyFileMissing,
          r.keyWriteAttempted, r.certWriteAttempted)) =
      some (false, true, true, true, true) ∧
    (updateCertFilesAndRestartContainers ⟨false, false, 0⟩
      ⟨fun _ => some [0], fun _ => some 3, 5, true, true, true, true, true, true⟩
      [7] [8] ⟨.content [6], .content [9], false, false⟩ true).map
        (fun r => (r.certFileExists, r.certFileUpdated, r.anyFileMissing,
          r.keyWriteAttempted, r.certWriteAttempted)) =
      some (false, true, true, true, true) :=
  ⟨rfl, rfl, rfl⟩

/-- Crypto oracles in which every stage succeeds and the pushed pair
parses. -/
def sampleCryptoOk : PushCrypto :=
  ⟨fun _ => some "p", fun _ => some [0, 1], 2, fun _ _ => some [3],
    fun _ => some ([1], [2]), fun _ _ => some ⟨10⟩⟩

/-- Crypto oracles in which every decode stage succeeds but the pushed
pair fails `tls.X509KeyPair`. -/
def sampleCryptoBadPair : PushCrypto :=
  ⟨fun _ => some "p", fun _ => some [0, 1], 2, fun _ _ => some [3],
    fun _ => some ([1], [2]), fun _ _ => none⟩

/-- Crypto oracles in which `AEAD.Open` rejects (e.g. tampered
ciphertext). -/
def sampleCryptoAeadFail : PushCrypto :=
  ⟨fun _ => some "p", fun _ => some [0, 1], 2, fun _ _ => none,
    fun _ => some ([1], [2]), fun _ _ => some ⟨10⟩⟩

/-- App state for handler witnesses: a stored pair with a parsed cert and
a pending job. -/
def sampleApp : AppState := ⟨⟨[0], [1], some ⟨9⟩⟩, true⟩

/-- C8: on the correct path and method, a failure at the body-JSON-decode,
base64-decode, or AEAD-open stage produces the identical unauthorized
response (401, store untouched, no reconcile, no job action), while a
payload that decrypts but fails the inner JSON decode yields 400. -/
theorem postKeyAndCert_auth_failures_uniform (c : PushCrypto) (cfg : Cfg)
    (env : Env) (disk : Disk) (st : AppState) (path method : String) (body : Bytes)
    (hroute : path = postRoute ∨ path = postRoute ++ "/")
    (hmethod : method = "POST") :
    (c.decodeOuterJson body = none →
      postKeyAndCert c cfg env disk st path method body =
        some ⟨.unauth401, st.tlsCert, false, .noAction⟩) ∧
    (∀ p, c.decodeOuterJson body = some p → c.b64Decode p = none →
      postKeyAndCert c cfg env disk st path method body =
        some ⟨.unauth401, st.tlsCert, false, .noAction⟩) ∧
    (∀ p d, c.decodeOuterJson body = some p → c.b64Decode p = some d →
      c.nonceSize ≤ d.length →
      c.aeadOpen (d.take c.nonceSize) (d.drop c.nonceSize) = none →
      postKeyAndCert c cfg env disk st path method body =
        some ⟨.unauth401, st.tlsCert, false, .noAction⟩) ∧
    (∀ p d plain, c.decodeOuterJson body = some p → c.b64Decode p = some d →
      c.nonceSize ≤ d.length →
      c.aeadOpen (d.take c.nonceSize) (d.drop c.nonceSize) = some plain →
      c.decodeInnerJson plain = none →
      postKeyAndCert c cfg env disk st path method body =
        some ⟨.bad400, st.tlsCert, false, .noAction⟩) := by
  have hcond : ((!(path = postRoute : Bool) && !(path = postRoute ++ "/" : Bool)) ||
      !(method = "POST" : Bool)) = false := by
    rcases hroute with h | h <;> subst h <;> subst hmethod <;> decide
  refine ⟨?_, ?_, ?_, ?_⟩
  · intro h1
    simp [postKeyAndCert, hcond, h1]
  · intro p h1 h2
    simp [postKeyAndCert, hcond, h1, h2]
  · intro p d h1 h2 h3 h4
    have h3' : ¬(d.length < c.nonceSize) := by omega
    simp [postKeyAndCert, hcond, h1, h2, h3', h4]
  · intro p d plain h1 h2 h3 h4 h5
    have h3' : ¬(d.length < c.nonceSize) := by omega
    simp [postKeyAndCert, hcond, h1, h2, h3', h4, h5]

/-- Witness for C8: a tampered ciphertext (AEAD rejects) on the correct
route yields 401 with the store untouched. -/
theorem postKeyAndCert_auth_failures_uniform_witness :
    ((postRoute : String) = postRoute ∨ (postRoute : String) = postRoute ++ "/") ∧
    postKeyAndCert sampleCryptoAeadFail sampleCfg sampleEnv sampleDisk sampleApp
      postRoute "POST" [9] =
      some ⟨.unauth401, sampleApp.tlsCert, false, .noAction⟩ :=
  ⟨Or.inl rfl,
    (postKeyAndCert_auth_failures_uniform sampleCryptoAeadFail sampleCfg sampleEnv
      sampleDisk sampleApp postRoute "POST" [9] (Or.inl rfl) rfl).2.2.1
      "p" [0, 1] rfl rfl (by decide) rfl⟩

/-- C9 (counterexample): a push whose payload decrypts and JSON-decodes
successfully but whose pair fails `tls.X509KeyPair` makes the handler
return 400 WITHOUT calling the reconcile pass (and without scheduling or
canceling anything), refuting the claim that every successfully decrypted
and decoded push is followed by `Reconcile(onlyIfMissing=true)`. (The
store is nonetheless left holding the new pem blobs - the C2 slip.) -/
theorem postKeyAndCert_update_error_skips_reconcile :
    sampleCryptoBadPair.decodeOuterJson [9] = some "p" ∧
    sampleCryptoBadPair.b64Decode "p" = some [0, 1] ∧
    sampleCryptoBadPair.aeadOpen [0, 1] [] = some [3] ∧
    sampleCryptoBadPair.decodeInnerJson [3] = some ([1], [2]) ∧
    postKeyAndCert sampleCryptoBadPair sampleCfg sampleEnv sampleDisk sampleApp
      postRoute "POST" [9] =
      some ⟨.bad400, ⟨[1], [2], some ⟨9⟩⟩, false, .noAction⟩ :=
  ⟨rfl, rfl, rfl, rfl, rfl⟩

/-- C9 (amended): when the stages succeed AND `CertificateStore.Update`
returns no error, the handler stores the pair, returns 200, runs the
reconcile pass with `onlyIfMissing = true`, schedules the deferred write
job exactly when that pass reports `diskNeedsUpdate`, and otherwise
cancels the pending job when one exists. -/
theorem postKeyAndCert_success_flow (c : PushCrypto) (cfg : Cfg) (env : Env)
    (disk : Disk) (st : AppState) (path method : String) (body : Bytes)
    (hroute : path = postRoute ∨ path = postRoute ++ "/")
    (hmethod : method = "POST")
    (p : String) (d plain kp cp : Bytes)
    (h1 : c.decodeOuterJson body = some p) (h2 : c.b64Decode p = some d)
    (h3 : c.nonceSize ≤ d.length)
    (h4 : c.aeadOpen (d.take c.nonceSize) (d.drop c.nonceSize) = some plain)
    (h5 : c.decodeInnerJson plain = some (kp, cp))
    (h6 : (st.tlsCert.update c.x509KeyPair kp cp).2.2 = false)
    (r : ReconcileResult)
    (h7 : updateCertFilesAndRestartContainers cfg env
      (st.tlsCert.update c.x509KeyPair kp cp).1.keyPem
      (st.tlsCert.update c.x509KeyPair kp cp).1.certPem disk true = some r) :
    postKeyAndCert c cfg env disk st path method body =
      some ⟨.ok200, (st.tlsCert.update c.x509KeyPair kp cp).1, true,
        if r.diskNeedsUpdate then .scheduledWrite
        else if st.pendingJob then .canceledPending else .noAction⟩ := by
  have hcond : ((!(path = postRoute : Bool) && !(path = postRoute ++ "/" : Bool)) ||
      !(method = "POST" : Bool)) = false := by
    rcases hroute with h | h <;> subst h <;> subst hmethod <;> decide
  have h3' : ¬(d.length < c.nonceSize) := by omega
  rcases hu : st.tlsCert.update c.x509KeyPair kp cp with ⟨sc1, upd, isErr⟩
  rw [hu] at h6 h7
  simp only at h6
  subst h6
  simp only at h7
  simp [postKeyAndCert, hcond, h1, h2, h3', h4, h5, hu, h7]
  split_ifs <;> rfl

/-- The reconcile outcome the C9 witness's deferred goroutine computes
(memory pair `[1]`/`[2]` as installed by the push). -/
def c9Result : ReconcileResult :=
  reconcileCore true
    (keyFileStatus [1] sampleDisk.keyFile).1 (keyFileStatus [1] sampleDisk.keyFile).2
    true true sampleDisk.modernPfxExists sampleDisk.legacyPfxExists
    sampleCfg.pfxCreate sampleCfg.pfxLegacyCreate
    (decide (sampleCfg.dockerContainersToRestart > 0))
    sampleEnv.writeKeyOk sampleEnv.writeCertOk sampleEnv.makeModernPfxOk
    sampleEnv.writeModernPfxOk sampleEnv.makeLegacyPfxOk sampleEnv.writeLegacyPfxOk

/-- Witness for the amended C9 at a fully concrete push. -/
theorem postKeyAndCert_success_flow_witness :
    (sampleApp.tlsCert.update sampleCryptoOk.x509KeyPair [1] [2]).2.2 = false ∧
    updateCertFilesAndRestartContainers sampleCfg sampleEnv
      (sampleApp.tlsCert.update sampleCryptoOk.x509KeyPair [1] [2]).1.keyPem
      (sampleApp.tlsCert.update sampleCryptoOk.x509KeyPair [1] [2]).1.certPem
      sampleDisk true = some c9Result ∧
    postKeyAndCert sampleCryptoOk sampleCfg sampleEnv sampleDisk sampleApp
      postRoute "POST" [9] =
      some ⟨.ok200, (sampleApp.tlsCert.update sampleCryptoOk.x509KeyPair [1] [2]).1, true,
        if c9Result.diskNeedsUpdate then .scheduledWrite
        else if sampleApp.pendingJob then .canceledPending else .noAction⟩ :=
  ⟨rfl, rfl,
    postKeyAndCert_success_flow sampleCryptoOk sampleCfg sampleEnv sampleDisk
      sampleApp postRoute "POST" [9] (Or.inl rfl) rfl "p" [0, 1] [3] [1] [2]
      rfl rfl (by decide) rfl rfl rfl c9Result rfl⟩

/-- One interleaving step preserves "goroutine 0 is canceled and can no
longer run or complete": the canceled flag is never cleared, `wake`
requires an uncanceled sleeper, and `finish` requires a running job. -/
theorem schedStep_preserves_j0_dead (s : SchedState) (op : SchedOp)
    (h1 : s.j0.canceled = true) (h2 : s.j0.pc ≠ .pRunning)
    (h3 : s.j0.pc ≠ .pDoneCompleted) :
    (schedStep s op).j0.canceled = true ∧ (schedStep s op).j0.pc ≠ .pRunning ∧
      (schedStep s op).j0.pc ≠ .pDoneCompleted := by
  obtain ⟨pend, ⟨pc0, can0⟩, ⟨pc1, can1⟩⟩ := s
  simp only at h1 h2 h3
  subst h1
  revert h2 h3
  revert op pend pc0 pc1 can1
  decide

/-- Along any trace, a canceled sleeper never reaches completion. -/
theorem j0_dead_schedRun (t : List SchedOp) : ∀ s : SchedState,
    s.j0.canceled = true → s.j0.pc ≠ .pRunning → s.j0.pc ≠ .pDoneCompleted →
    (schedRun s t).j0.canceled = true ∧ (schedRun s t).j0.pc ≠ .pRunning ∧
      (schedRun s t).j0.pc ≠ .pDoneCompleted := by
  induction t with
  | nil => exact fun s h1 h2 h3 => ⟨h1, h2, h3⟩
  | cons op t ih =>
    intro s h1 h2 h3
    obtain ⟨g1, g2, g3⟩ := schedStep_preserves_j0_dead s op h1 h2 h3
    exact ih (schedStep s op) g1 g2 g3

/-- C5 (counterexample): the two scheduling goroutines read the shared
`app.pendingJobCancel` without synchronization; in the interleaving where
both run their cancel-old step before either installs its own handle,
neither job is canceled and BOTH run to completion, refuting the claimed
at-most-one-job invariant and the claim that the first job is canceled
before its sleep elapses. -/
theorem schedule_race_both_jobs_complete :
    schedRun schedInit
      [.cancelOld false, .cancelOld true, .install false, .install true,
        .wake false, .wake true, .finish false, .finish true] =
      ⟨some true, ⟨.pDoneCompleted, false⟩, ⟨.pDoneCompleted, false⟩⟩ := by
  rfl

/-- C5 (amended): each scheduling goroutine cancels whatever job handle is
installed when it reads the shared handle; when the cancel-and-install
prologues do not interleave (the second runs only after the first job is
installed and sleeping), the first job is canceled during its sleep and
can never run to completion along ANY continuation, and in the canonical
continuation exactly the second job completes. -/
theorem schedule_serialized_single_flight (t : List SchedOp) :
    (schedRun schedInit
      ([.cancelOld false, .install false, .cancelOld true, .install true] ++ t)).j0.pc ≠
      .pDoneCompleted ∧
    schedRun schedInit
      [.cancelOld false, .install false, .cancelOld true, .install true,
        .observeCancel false, .wake true, .finish true] =
      ⟨some true, ⟨.pDoneCanceled, true⟩, ⟨.pDoneCompleted, false⟩⟩ := by
  constructor
  · have happ : schedRun schedInit
        ([.cancelOld false, .install false, .cancelOld true, .install true] ++ t) =
        schedRun (schedRun schedInit
          [.cancelOld false, .install false, .cancelOld true, .install true]) t := by
      simp [schedRun]
    have hpre : schedRun schedInit
        [.cancelOld false, .install false, .cancelOld true, .install true] =
        ⟨some true, ⟨.pSleeping, true⟩, ⟨.pSleeping, false⟩⟩ := by rfl
    rw [happ, hpre]
    exact (j0_dead_schedRun t ⟨some true, ⟨.pSleeping, true⟩, ⟨.pSleeping, false⟩⟩
      rfl (by decide) (by decide)).2.2
  · rfl

/-- Witness for C4: updating with the already-stored pair is a complete
no-op. -/
theorem safeCert_update_identical_pair_noop_witness :
    (SafeCert.keyPem ⟨[5], [6], some ⟨9⟩⟩ = [5] ∧
      SafeCert.certPem ⟨[5], [6], some ⟨9⟩⟩ = [6]) ∧
    SafeCert.update (fun _ _ => none) ⟨[5], [6], some ⟨9⟩⟩ [5] [6] =
      (⟨[5], [6], some ⟨9⟩⟩, false, false) :=
  ⟨⟨rfl, rfl⟩,
    (safeCert_update_identical_pair_noop (fun _ _ => none) (fun _ _ => none)
      ⟨[5], [6], some ⟨9⟩⟩ [5] [6] rfl rfl).1⟩

end CertWarden
